import Mathlib

/-
Verification development for the csv2excel repository.

The Go sources are embedded shallowly:
  internal/file/file.go   : CSV data model, Read, inferColumnTypes,
                            ConvertColumnTypes, Merge
  cmd (merge command)     : processFiles, the concurrent ingestion coordinator

File I/O is modelled by an oracle function from file paths to the outcome of
opening the file and running csv.ReadAll on it.  The nondeterministic arrival
order of concurrent worker results on the result channel is modelled by an
explicit arrival list, constrained in theorems to be a permutation of the
list of worker results.
-/

deriving instance DecidableEq for Except

namespace Csv2Excel

/-- CellValue models the dynamically typed cell values stored in the Go
field Records of type a slice of interface values.  A cell holds a string,
a 64-bit signed integer produced by strconv.ParseInt, or a 64-bit float
produced by strconv.ParseFloat.  Since no inspected code computes with the
numeric value of a float, a float is represented abstractly by the string
it was parsed from: Go float parsing is a deterministic function of that
string, and no claim distinguishes two floats parsed from distinct
strings. -/
inductive CellValue where
  | str (s : String)
  | int (i : Int)
  | float (lit : String)
deriving DecidableEq, Repr

/-- ColumnType mirrors the Go enumeration ColumnType with constructors
StringType, FloatType and IntegerType from internal/file/file.go. -/
inductive ColumnType where
  | StringType
  | FloatType
  | IntegerType
deriving DecidableEq, Repr

/-- Column mirrors the Go struct Column.  The Go field named Type is called
Typ here because Type is reserved in Lean. -/
structure Column where
  Name : String
  Typ : ColumnType
deriving DecidableEq, Repr

/-- CSV mirrors the Go struct CSV from internal/file/file.go. -/
structure CSV where
  FilePath : String
  Delimiter : Char
  Headers : List Column
  Records : List (List CellValue)
deriving DecidableEq, Repr

/-- New models file.New(WithFilePath(filePath), WithDelimiter(delimiter)):
the remaining fields keep their Go zero values (nil slices, here empty
lists). -/
def New (filePath : String) (delimiter : Char) : CSV :=
  { FilePath := filePath, Delimiter := delimiter, Headers := [], Records := [] }

/-- Models the Go constant defaultTypeInferanceRows. -/
def defaultTypeInferanceRows : Nat := 20

/-- Strips one optional leading plus or minus sign, the shared first step
of strconv number parsing. -/
def stripSign (cs : List Char) : List Char :=
  match cs with
  | '+' :: r => r
  | '-' :: r => r
  | r => r

/-- True when the string starts with a minus sign. -/
def isNegSign (cs : List Char) : Bool :=
  match cs with
  | '-' :: _ => true
  | _ => false

/-- Checks one optional leading sign followed by a nonempty run of decimal
digits, the shape strconv accepts for a decimal exponent and for a base-10
integer body. -/
def signedDigits (cs : List Char) : Bool :=
  match cs with
  | '+' :: r => !r.isEmpty && r.all Char.isDigit
  | '-' :: r => !r.isEmpty && r.all Char.isDigit
  | r => !r.isEmpty && r.all Char.isDigit

/-- Models the optional decimal exponent part at the end of a float literal:
either nothing, or the letter e in either case followed by signed digits. -/
def expTail (cs : List Char) : Bool :=
  match cs with
  | [] => true
  | 'e' :: r => signedDigits r
  | 'E' :: r => signedDigits r
  | _ => false

/-- Models the mandatory binary exponent of a hexadecimal float literal:
the letter p in either case followed by signed digits. -/
def pTail (cs : List Char) : Bool :=
  match cs with
  | 'p' :: r => signedDigits r
  | 'P' :: r => signedDigits r
  | _ => false

/-- Checks a decimal mantissa with optional fraction, followed by an
optional exponent: digits, optionally a dot and more digits, with at least
one digit in total. -/
def decMantissa (cs : List Char) : Bool :=
  let ip := cs.takeWhile Char.isDigit
  let rest := cs.dropWhile Char.isDigit
  match rest with
  | '.' :: r2 =>
    let fp := r2.takeWhile Char.isDigit
    let rest2 := r2.dropWhile Char.isDigit
    (!ip.isEmpty || !fp.isEmpty) && expTail rest2
  | _ => !ip.isEmpty && expTail rest

/-- Hexadecimal digit check for the hexadecimal float mantissa. -/
def isHexDigitChar (c : Char) : Bool :=
  c.isDigit || ('a' ≤ c && c ≤ 'f') || ('A' ≤ c && c ≤ 'F')

/-- Checks a hexadecimal mantissa, after the 0x marker, with optional
fraction and the mandatory binary exponent. -/
def hexMantissa (cs : List Char) : Bool :=
  let ip := cs.takeWhile isHexDigitChar
  let rest := cs.dropWhile isHexDigitChar
  match rest with
  | '.' :: r2 =>
    let fp := r2.takeWhile isHexDigitChar
    let rest2 := r2.dropWhile isHexDigitChar
    (!ip.isEmpty || !fp.isEmpty) && pTail rest2
  | _ => !ip.isEmpty && pTail rest

/-- Recognizes the special float spellings accepted by strconv.ParseFloat:
inf and infinity with an optional sign, and nan without a sign, all case
insensitive (a signed nan falls through the infinity comparison in the Go
function special and is rejected). -/
def isSpecialFloat (cs : List Char) : Bool :=
  let inf := fun (l : List Char) =>
    l.map Char.toLower == ['i', 'n', 'f'] ||
    l.map Char.toLower == ['i', 'n', 'f', 'i', 'n', 'i', 't', 'y']
  match cs with
  | '+' :: r => inf r
  | '-' :: r => inf r
  | r => inf r || r.map Char.toLower == ['n', 'a', 'n']

/-- Detects the hexadecimal marker 0x or 0X at the start of the number
body. -/
def isHexMarked (cs : List Char) : Bool :=
  match cs with
  | '0' :: 'x' :: _ => true
  | '0' :: 'X' :: _ => true
  | _ => false

/-- Models success of strconv.ParseFloat(s, 64) as used in
internal/file/file.go: an optional sign, then either a special spelling, a
hexadecimal float with its mandatory binary exponent, or a decimal mantissa
with optional exponent.  Not modelled: digit-separating underscores, and the
range error ParseFloat reports near the limits of float64; no claim in this
development exercises either. -/
def parseFloatOk (s : String) : Bool :=
  let cs := s.data
  if isSpecialFloat cs then true
  else
    let body := stripSign cs
    if isHexMarked body then hexMantissa (body.drop 2)
    else decMantissa body

/-- Models strconv.ParseInt(s, 10, 64): an optional sign, a nonempty run of
decimal digits, and a range check against the signed 64-bit bounds.  Returns
the parsed value on success. -/
def parseInt64 (s : String) : Option Int :=
  let ds := stripSign s.data
  if ds.isEmpty then none
  else if ds.all Char.isDigit then
    let m : Nat := ds.foldl (fun a c => 10 * a + (c.toNat - 48)) 0
    let v : Int := if isNegSign s.data then -(m : Int) else (m : Int)
    if -(2 ^ 63) ≤ v ∧ v ≤ 2 ^ 63 - 1 then some v else none
  else none

/-- Tests whether the cell at index i of the record is a string accepted by
ParseFloat: the condition under which the Go inference loop increments
floatCount for that record. -/
def floatCell (i : Nat) (record : List CellValue) : Bool :=
  match record[i]? with
  | some (CellValue.str s) => parseFloatOk s
  | _ => false

/-- Tests whether the cell at index i of the record is a string rejected by
ParseFloat but accepted by ParseInt: the condition under which the Go
inference loop increments intCount for that record. -/
def intCell (i : Nat) (record : List CellValue) : Bool :=
  match record[i]? with
  | some (CellValue.str s) => !parseFloatOk s && (parseInt64 s).isSome
  | _ => false

/-- Number of sampled records whose cell in column i parses as a float,
the Go variable floatCount. -/
def countFloat (sample : List (List CellValue)) (i : Nat) : Nat :=
  sample.countP (floatCell i)

/-- Number of sampled records whose cell in column i fails float parsing
and parses as an integer, the Go variable intCount. -/
def countInt (sample : List (List CellValue)) (i : Nat) : Nat :=
  sample.countP (intCell i)

/-- Decision applied to the column at index i by the loop body of
inferColumnTypes: assign FloatType when floatCount equals rangeToCheck,
else IntegerType when intCount equals rangeToCheck, else leave the column
unchanged. -/
def inferColumn (sample : List (List CellValue)) (rangeToCheck i : Nat)
    (col : Column) : Column :=
  if countFloat sample i = rangeToCheck then { col with Typ := ColumnType.FloatType }
  else if countInt sample i = rangeToCheck then { col with Typ := ColumnType.IntegerType }
  else col

/-- Applies inferColumn to every header, with i tracking the column index,
mirroring the loop for i := range c.Headers. -/
def inferHeaders (sample : List (List CellValue)) (rangeToCheck i : Nat) :
    List Column → List Column
  | [] => []
  | col :: rest =>
    inferColumn sample rangeToCheck i col ::
      inferHeaders sample rangeToCheck (i + 1) rest

/-- Models the method inferColumnTypes of internal/file/file.go: the sample
is the first min(defaultTypeInferanceRows, len(Records)) records, and each
header column is updated by the counting decision rule. -/
def inferColumnTypes (c : CSV) : CSV :=
  let rangeToCheck := min defaultTypeInferanceRows c.Records.length
  { c with Headers := inferHeaders (c.Records.take rangeToCheck) rangeToCheck 0 c.Headers }

/-- Conversion applied to one cell of a record in a column of the given
type, mirroring the switch statement in ConvertColumnTypes: a string cell
in a FloatType column is replaced by the parsed float when ParseFloat
succeeds, a string cell in an IntegerType column by the parsed integer when
ParseInt succeeds, and every other cell is left unchanged. -/
def convertCell (t : ColumnType) (v : CellValue) : CellValue :=
  match v with
  | CellValue.str s =>
    match t with
    | ColumnType.FloatType => if parseFloatOk s then CellValue.float s else CellValue.str s
    | ColumnType.IntegerType =>
      match parseInt64 s with
      | some n => CellValue.int n
      | none => CellValue.str s
    | ColumnType.StringType => CellValue.str s
  | v => v

/-- Converts one record cell by cell against the header list, mirroring the
loop for i := range c.Headers over record[i]: cells beyond the header count
are left unchanged. -/
def convertRow : List Column → List CellValue → List CellValue
  | _, [] => []
  | [], vs => vs
  | col :: hs, v :: vs => convertCell col.Typ v :: convertRow hs vs

/-- Models the method ConvertColumnTypes of internal/file/file.go: first
infer the column types, then convert every record in place. -/
def ConvertColumnTypes (c : CSV) : CSV :=
  let c1 := inferColumnTypes c
  { c1 with Records := c1.Records.map (convertRow c1.Headers) }

/-- Invariant of the data model: every record has exactly one cell per
header column.  The Go code indexes record[i] for every header index i and
would panic on a shorter record, so theorems about whole-table operations
assume it. -/
def WellFormed (c : CSV) : Prop :=
  ∀ r ∈ c.Records, r.length = c.Headers.length

instance (c : CSV) : Decidable (WellFormed c) := by
  unfold WellFormed
  infer_instance

/-- Header column built by Read for one header-row field: the field text as
name, with type StringType. -/
def headerColumn (name : String) : Column :=
  { Name := name, Typ := ColumnType.StringType }

/-- Models the method Read of internal/file/file.go.  The oracle fs maps a
file path to the outcome of os.Open followed by csv.ReadAll: an error, or
the parsed records.  On success the header columns are appended to Headers
with type StringType, and when more than one record is present the data
records replace the Records field. -/
def Read (fs : String → Except String (List (List String))) (c : CSV) :
    Except String CSV :=
  if c.FilePath = "" then
    Except.error "file path is empty, a valid file path is required"
  else
    match fs c.FilePath with
    | Except.error e => Except.error e
    | Except.ok records =>
      match records with
      | [] => Except.error ("no records found in " ++ c.FilePath)
      | first :: rest =>
        let c1 := { c with Headers := c.Headers ++ first.map headerColumn }
        if records.length > 1 then
          Except.ok { c1 with Records := rest.map (fun record => record.map CellValue.str) }
        else
          Except.ok c1

/-- Errors returned by Merge in internal/file/file.go. -/
inductive MergeError where
  | noInputTables
  | schemaMismatch (filePath1 filePath2 : String)
deriving DecidableEq, Repr

/-- Models the function Merge of internal/file/file.go: fail on an empty
input list, fail on the first file whose header count differs from the
first file, otherwise build a new CSV from the first file's headers and
delimiter and the concatenation of all files' records. -/
def Merge (files : List CSV) : Except MergeError CSV :=
  match files with
  | [] => Except.error MergeError.noInputTables
  | first :: rest =>
    match rest.find? (fun f => f.Headers.length != first.Headers.length) with
    | some f => Except.error (MergeError.schemaMismatch f.FilePath first.FilePath)
    | none =>
      Except.ok { FilePath := "", Delimiter := first.Delimiter,
                  Headers := first.Headers,
                  Records := (files.map CSV.Records).flatten }

/-- ASCII whitespace trimmed by the model of strings.TrimSpace.  Go trims
the full Unicode white-space class; the paths appearing in the claims are
ASCII, where the two notions agree. -/
def isSpaceChar (c : Char) : Bool :=
  c == ' ' || c == '\t' || c == '\n' || c == '\r'

/-- Models strings.TrimSpace on the path strings of processFiles. -/
def trimSpace (s : String) : String :=
  String.mk (((s.data.dropWhile isSpaceChar).reverse.dropWhile isSpaceChar).reverse)

/-- Models strings.HasSuffix(filePath, ".csv"). -/
def hasCsvSuffix (s : String) : Bool :=
  List.isSuffixOf ['.', 'c', 's', 'v'] s.data

/-- Models the spawning loop of processFiles in the merge command: each
path is trimmed and its extension checked; on the first invalid path the
function returns immediately, otherwise a worker goroutine is started for
the trimmed path.  The first component is the list of worker paths started
so far, the second is false exactly when the loop aborted on an invalid
path. -/
def validatePaths : List String → List String → List String × Bool
  | [], started => (started, true)
  | p :: rest, started =>
    let q := trimSpace p
    if hasCsvSuffix q then validatePaths rest (started ++ [q])
    else (started, false)

/-- Paths for which processFiles starts a worker goroutine (each such
worker opens and reads its source) before the spawning loop finishes or
aborts. -/
def startedWorkers (paths : List String) : List String :=
  (validatePaths paths []).1

/-- True when every trimmed path carries the .csv extension, so the
spawning loop of processFiles runs to completion. -/
def pathsValid (paths : List String) : Bool :=
  (validatePaths paths []).2

/-- Result of one worker goroutine of processFiles: a fresh CSV value for
the trimmed path and the given delimiter, read through the oracle. -/
def workerResult (fs : String → Except String (List (List String)))
    (delimiter : Char) (filePath : String) : Except String CSV :=
  Read fs (New filePath delimiter)

/-- Error messages collected by the draining loop of processFiles, in
channel arrival order. -/
def readErrors (results : List (Except String CSV)) : List String :=
  results.filterMap fun r =>
    match r with
    | Except.error e => some e
    | Except.ok _ => none

/-- Successfully read files collected by the draining loop of
processFiles, in channel arrival order. -/
def readFiles (results : List (Except String CSV)) : List CSV :=
  results.filterMap fun r =>
    match r with
    | Except.ok f => some f
    | Except.error _ => none

/-- Errors returned by processFiles in the merge command. -/
inductive ProcessError where
  | invalidInputFormat
  | aggregatedReadError (errs : List String)
  | noValidFiles
  | mergeError (e : MergeError)
deriving DecidableEq, Repr

/-- Models processFiles of the merge command.  The parameter arrival is
the sequence in which the worker results come off the unbuffered result
channel; the scheduler may deliver them in any order, so theorems
constrain arrival to be a permutation of the started workers' results.
If any trimmed path lacks the .csv extension the whole call fails with
invalidInputFormat; otherwise the drained errors, if any, are aggregated;
otherwise an empty file list is rejected; otherwise the files are passed
to Merge in arrival order. -/
def processFiles (fs : String → Except String (List (List String)))
    (paths : List String) (delimiter : Char)
    (arrival : List (Except String CSV)) : Except ProcessError CSV :=
  if pathsValid paths then
    if !(readErrors arrival).isEmpty then
      Except.error (ProcessError.aggregatedReadError (readErrors arrival))
    else if (readFiles arrival).isEmpty then
      Except.error ProcessError.noValidFiles
    else (Merge (readFiles arrival)).mapError ProcessError.mergeError
  else Except.error ProcessError.invalidInputFormat

/-- Concrete table for merge examples: one column, one row. -/
def mrgA : CSV :=
  { FilePath := "a.csv", Delimiter := ',',
    Headers := [{ Name := "h", Typ := ColumnType.StringType }],
    Records := [[CellValue.str "1"]] }

/-- Concrete table for merge examples: one column, one row. -/
def mrgB : CSV :=
  { FilePath := "b.csv", Delimiter := ',',
    Headers := [{ Name := "h", Typ := ColumnType.StringType }],
    Records := [[CellValue.str "2"]] }

/-- Concrete oracle for coordinator examples: a.csv holds header h and the
row 1; every other path holds header h and the row 2. -/
def oracleAB : String → Except String (List (List String)) := fun p =>
  if p = "a.csv" then Except.ok [["h"], ["1"]] else Except.ok [["h"], ["2"]]

/-- Concrete oracle for read-failure examples: bad.csv fails to read,
every other path holds a single header record. -/
def oracleErr : String → Except String (List (List String)) := fun p =>
  if p = "bad.csv" then Except.error "open bad.csv: no such file or directory"
  else Except.ok [["h"], ["1"]]

/-- Concrete oracle whose every path holds exactly one record. -/
def oracleOne : String → Except String (List (List String)) := fun _ =>
  Except.ok [["h1", "h2"]]

/-- Concrete oracle whose every path holds zero records. -/
def oracleEmpty : String → Except String (List (List String)) := fun _ =>
  Except.ok []

/-- Concrete CSV value that already carries a header column, for the
header-append example. -/
def csvOldHeaders : CSV :=
  { FilePath := "x.csv", Delimiter := ',',
    Headers := [{ Name := "old", Typ := ColumnType.StringType }],
    Records := [] }

/-- Table produced by reading a.csv through oracleAB. -/
def tblA : CSV :=
  { FilePath := "a.csv", Delimiter := ',',
    Headers := [{ Name := "h", Typ := ColumnType.StringType }],
    Records := [[CellValue.str "1"]] }

/-- Table produced by reading b.csv through oracleAB. -/
def tblB : CSV :=
  { FilePath := "b.csv", Delimiter := ',',
    Headers := [{ Name := "h", Typ := ColumnType.StringType }],
    Records := [[CellValue.str "2"]] }

/-- Worker results of reading good.csv and bad.csv through oracleErr, in
spawn order: the arrival schedule used by the aggregation example. -/
def wArr : List (Except String CSV) :=
  (startedWorkers ["good.csv", "bad.csv"]).map (workerResult oracleErr ',')

/-- Concrete well-formed table for the idempotence example. -/
def idemTbl : CSV :=
  { FilePath := "t.csv", Delimiter := ',',
    Headers := [{ Name := "a", Typ := ColumnType.StringType },
                { Name := "b", Typ := ColumnType.StringType }],
    Records := [[CellValue.str "1.5", CellValue.str "x"],
                [CellValue.str "2", CellValue.str "y"]] }

/-- Merge succeeds when every later file has as many header columns as the
first file, and returns the first file's headers and delimiter over the
concatenation of all records.  Shared backbone for the merge and
coordinator theorems. -/
theorem Merge_ok_aux (first : CSV) (rest : List CSV)
    (h : ∀ f ∈ rest, f.Headers.length = first.Headers.length) :
    Merge (first :: rest) =
      Except.ok { FilePath := "", Delimiter := first.Delimiter,
                  Headers := first.Headers,
                  Records := ((first :: rest).map CSV.Records).flatten } := by
  have hfind : rest.find? (fun f => f.Headers.length != first.Headers.length) = none := by
    apply List.find?_eq_none.2
    intro f hf
    simp [h f hf]
  simp [Merge, hfind]

/-- The spawning loop of processFiles, for any accumulator: the workers
started are the accumulator followed by the longest run of trimmed paths
carrying the .csv extension, and the loop completes exactly when every
trimmed path carries it. -/
theorem validatePaths_spec (paths : List String) (acc : List String) :
    validatePaths paths acc =
      (acc ++ (paths.map trimSpace).takeWhile hasCsvSuffix,
       paths.all (fun p => hasCsvSuffix (trimSpace p))) := by
  induction paths generalizing acc with
  | nil => simp [validatePaths]
  | cons p rest ih =>
    by_cases h : hasCsvSuffix (trimSpace p)
    · simp [validatePaths, h, ih, List.takeWhile_cons]
    · simp [validatePaths, h, List.takeWhile_cons]

/-- An arrival consisting only of successes yields no read errors. -/
theorem readErrors_map_ok (files : List CSV) :
    readErrors (files.map Except.ok) = [] := by
  induction files with
  | nil => rfl
  | cons f r ih => simpa [readErrors, List.filterMap_cons] using ih

/-- An arrival consisting only of successes yields exactly its files, in
arrival order. -/
theorem readFiles_map_ok (files : List CSV) :
    readFiles (files.map Except.ok) = files := by
  induction files with
  | nil => rfl
  | cons f r ih => simpa [readFiles, List.filterMap_cons] using ih

/-- Claim C1: the claim states that inference on a table with zero rows
leaves every column type at StringType.  The code disagrees: with zero
rows the sample is empty, rangeToCheck is zero, and floatCount equals
rangeToCheck vacuously, so every column is assigned FloatType.  This
theorem evaluates the code at the failing input. -/
theorem inferColumnTypes_zero_rows_assigns_FloatType :
    inferColumnTypes
        { FilePath := "t.csv", Delimiter := ',',
          Headers := [{ Name := "Column1", Typ := ColumnType.StringType }],
          Records := [] } =
      { FilePath := "t.csv", Delimiter := ',',
        Headers := [{ Name := "Column1", Typ := ColumnType.FloatType }],
        Records := [] } := by
  decide

/-- Claim C2: the claim states that a column whose sampled cells all parse
as base-10 signed 64-bit integers is assigned IntegerType and never
FloatType.  The code disagrees: ParseFloat succeeds on every integer
string and is attempted first, so floatCount reaches the sample size and
the column is assigned FloatType; the intCount branch is unreachable.
The repository's own test expects IntegerType on exactly this sample.
This theorem evaluates the code at the failing input. -/
theorem inferColumnTypes_integer_sample_assigns_FloatType :
    inferColumnTypes
        { FilePath := "t.csv", Delimiter := ',',
          Headers := [{ Name := "Column1", Typ := ColumnType.StringType }],
          Records := [[CellValue.str "123"], [CellValue.str "456"]] } =
      { FilePath := "t.csv", Delimiter := ',',
        Headers := [{ Name := "Column1", Typ := ColumnType.FloatType }],
        Records := [[CellValue.str "123"], [CellValue.str "456"]] } := by
  decide

/-- Claim C7: for every non-empty sequence of tables whose column counts
all equal the first table's column count, Merge succeeds, the result's
columns and delimiter are those of the first table, and the result's rows
are the concatenation of all input tables' rows in input order. -/
theorem Merge_concatenates_rows_in_order (first : CSV) (rest : List CSV)
    (h : ∀ f ∈ rest, f.Headers.length = first.Headers.length) :
    Merge (first :: rest) =
      Except.ok { FilePath := "", Delimiter := first.Delimiter,
                  Headers := first.Headers,
                  Records := ((first :: rest).map CSV.Records).flatten } :=
  Merge_ok_aux first rest h

/-- Witness for claim C7 at two concrete one-column tables. -/
theorem Merge_concatenates_rows_in_order_witness :
    Merge [mrgA, mrgB] =
      Except.ok { FilePath := "", Delimiter := ',',
                  Headers := [{ Name := "h", Typ := ColumnType.StringType }],
                  Records := [[CellValue.str "1"], [CellValue.str "2"]] } := by
  have := Merge_concatenates_rows_in_order mrgA [mrgB] (by decide)
  simpa [mrgA, mrgB] using this

/-- Claim C8: Merge fails exactly when the input sequence is empty, with
noInputTables, or when some later table's column count differs from the
first table's column count, with schemaMismatch; only column counts are
compared, and a failure carries no merged table. -/
theorem Merge_fails_iff_empty_or_column_count_mismatch (files : List CSV) :
    (Merge files = Except.error MergeError.noInputTables ↔ files = []) ∧
    ((∃ p1 p2, Merge files = Except.error (MergeError.schemaMismatch p1 p2)) ↔
      ∃ first rest, files = first :: rest ∧
        ∃ f ∈ rest, f.Headers.length ≠ first.Headers.length) := by
  cases files with
  | nil =>
    constructor
    · simp [Merge]
    · simp [Merge]
  | cons first rest =>
    cases hfind : rest.find? (fun f => f.Headers.length != first.Headers.length) with
    | none =>
      constructor
      · simp [Merge, hfind]
      · constructor
        · rintro ⟨p1, p2, hp⟩
          simp [Merge, hfind] at hp
        · rintro ⟨f0, r0, heq, f, hf, hne⟩
          obtain ⟨h1, h2⟩ := List.cons.inj heq
          subst h1; subst h2
          have := List.find?_eq_none.1 hfind f hf
          simp [hne] at this
    | some g =>
      have hg : g.Headers.length ≠ first.Headers.length := by
        have := List.find?_some hfind
        simpa using this
      constructor
      · simp [Merge, hfind]
      · constructor
        · intro _
          exact ⟨first, rest, rfl, g, List.mem_of_find?_eq_some hfind, hg⟩
        · intro _
          exact ⟨g.FilePath, first.FilePath, by simp [Merge, hfind]⟩

/-- Claim C9: reading a source that holds exactly one record populates the
columns from that record, each with type StringType, leaves the table with
zero rows, and succeeds; a source with zero records is rejected as
empty. -/
theorem Read_single_record_header_only
    (fs fs0 : String → Except String (List (List String)))
    (filePath : String) (delimiter : Char) (hpath : filePath ≠ "")
    (hdr : List String) (hfs : fs filePath = Except.ok [hdr])
    (hfs0 : fs0 filePath = Except.ok []) :
    Read fs (New filePath delimiter) =
      Except.ok { FilePath := filePath, Delimiter := delimiter,
                  Headers := hdr.map headerColumn,
                  Records := [] } ∧
    Read fs0 (New filePath delimiter) =
      Except.error ("no records found in " ++ filePath) := by
  constructor
  · unfold Read New
    simp [hpath, hfs]
  · unfold Read New
    simp [hpath, hfs0]

/-- Witness for claim C9 at a concrete path and oracles. -/
theorem Read_single_record_header_only_witness :
    Read oracleOne (New "a.csv" ',') =
      Except.ok { FilePath := "a.csv", Delimiter := ',',
                  Headers := [{ Name := "h1", Typ := ColumnType.StringType },
                              { Name := "h2", Typ := ColumnType.StringType }],
                  Records := [] } ∧
    Read oracleEmpty (New "a.csv" ',') =
      Except.error ("no records found in " ++ "a.csv") :=
  Read_single_record_header_only oracleOne oracleEmpty "a.csv" ','
    (by decide) ["h1", "h2"] rfl rfl

/-- Claim C10: a successful Read appends the parsed header columns to the
Headers already present instead of replacing them, so the resulting
Headers are the old Headers followed by the new file's columns. -/
theorem Read_appends_headers
    (fs : String → Except String (List (List String))) (c : CSV)
    (first : List String) (rest : List (List String))
    (hpath : c.FilePath ≠ "")
    (hfs : fs c.FilePath = Except.ok (first :: rest)) :
    ∃ t, Read fs c = Except.ok t ∧
      t.Headers = c.Headers ++ first.map headerColumn := by
  unfold Read
  rw [if_neg hpath, hfs]
  cases rest with
  | nil =>
    refine ⟨{ c with Headers := c.Headers ++ first.map headerColumn }, ?_, rfl⟩
    rfl
  | cons r rs =>
    refine ⟨{ c with
        Headers := c.Headers ++ first.map headerColumn,
        Records := (r :: rs).map (fun record => record.map CellValue.str) },
      ?_, rfl⟩
    simp

/-- Witness for claim C10 at a table that already carries a header
column. -/
theorem Read_appends_headers_witness :
    ∃ t, Read oracleOne csvOldHeaders = Except.ok t ∧
      t.Headers = csvOldHeaders.Headers ++ ["h1", "h2"].map headerColumn :=
  Read_appends_headers oracleOne csvOldHeaders ["h1", "h2"] [] (by decide) rfl

/-- Claim C3 counterexample: the claim states that with an invalid
extension anywhere in the list no worker is started and no source is
read.  On the list [a.csv, b.txt] the call does fail with
invalidInputFormat, but the worker for a.csv has already been started
when the invalid extension of b.txt is met, so its source is read. -/
theorem processFiles_invalid_extension_cex :
    processFiles oracleAB ["a.csv", "b.txt"] ',' [] =
        Except.error ProcessError.invalidInputFormat ∧
    startedWorkers ["a.csv", "b.txt"] = ["a.csv"] ∧
    startedWorkers ["a.csv", "b.txt"] ≠ [] := by
  refine ⟨?_, ?_, ?_⟩ <;> decide

/-- Claim C3 as amended: for every path list containing a path that, after
trimming, does not end in .csv, processFiles fails with
invalidInputFormat and returns no table; the workers started before the
failure are exactly those for the longest run of valid trimmed paths at
the start of the list, so sources are read unless the first path is
already invalid. -/
theorem processFiles_invalid_extension_fails
    (fs : String → Except String (List (List String))) (paths : List String)
    (delimiter : Char) (arrival : List (Except String CSV))
    (h : ∃ p ∈ paths, hasCsvSuffix (trimSpace p) = false) :
    processFiles fs paths delimiter arrival =
        Except.error ProcessError.invalidInputFormat ∧
    startedWorkers paths = (paths.map trimSpace).takeWhile hasCsvSuffix := by
  have hvalid : pathsValid paths = false := by
    obtain ⟨p, hp, hbad⟩ := h
    unfold pathsValid
    rw [validatePaths_spec]
    exact List.all_eq_false.2 ⟨p, hp, by simp [hbad]⟩
  constructor
  · unfold processFiles
    rw [hvalid]
    rfl
  · unfold startedWorkers
    rw [validatePaths_spec]
    simp

/-- Witness for claim C3 as amended, at a list whose second path has a
non-csv extension. -/
theorem processFiles_invalid_extension_fails_witness :
    processFiles oracleAB ["x.csv", "y.txt"] ',' [] =
        Except.error ProcessError.invalidInputFormat ∧
    startedWorkers ["x.csv", "y.txt"] =
      ((["x.csv", "y.txt"].map trimSpace).takeWhile hasCsvSuffix) :=
  processFiles_invalid_extension_fails oracleAB ["x.csv", "y.txt"] ',' []
    ⟨"y.txt", by decide, by decide⟩

/-- Claim C4 counterexample: the claim states that the tables reach Merge
in declared path order for every completion order of the concurrent
reads.  The arrival schedule delivering b.csv before a.csv is a
permutation of the worker results, yet the merged rows come out in
completion order [2], [1], not declared order [1], [2]. -/
theorem processFiles_completion_order_cex :
    ([Except.ok tblB, Except.ok tblA] : List (Except String CSV)).Perm
        ((startedWorkers ["a.csv", "b.csv"]).map (workerResult oracleAB ',')) ∧
    processFiles oracleAB ["a.csv", "b.csv"] ',' [Except.ok tblB, Except.ok tblA] =
      Except.ok { FilePath := "", Delimiter := ',',
                  Headers := [{ Name := "h", Typ := ColumnType.StringType }],
                  Records := [[CellValue.str "2"], [CellValue.str "1"]] } ∧
    [[CellValue.str "2"], [CellValue.str "1"]] ≠
      [[CellValue.str "1"], [CellValue.str "2"]] := by
  refine ⟨?_, ?_, ?_⟩
  · decide
  · decide
  · decide

/-- Claim C4 as amended: the coordinator does not restore declared order;
it hands the tables to Merge in channel arrival order.  For every arrival
schedule that is a permutation of the worker results and consists only of
successes, the result inherits the first arrived table's headers and
delimiter and concatenates all records in arrival order. -/
theorem processFiles_merges_in_arrival_order
    (fs : String → Except String (List (List String))) (paths : List String)
    (delimiter : Char) (arrival : List (Except String CSV))
    (first : CSV) (rest : List CSV)
    (hvalid : pathsValid paths = true)
    (hperm : arrival.Perm ((startedWorkers paths).map (workerResult fs delimiter)))
    (harr : arrival = (first :: rest).map Except.ok)
    (hcols : ∀ f ∈ rest, f.Headers.length = first.Headers.length) :
    processFiles fs paths delimiter arrival =
      Except.ok { FilePath := "", Delimiter := first.Delimiter,
                  Headers := first.Headers,
                  Records := ((first :: rest).map CSV.Records).flatten } := by
  subst harr
  unfold processFiles
  rw [hvalid, readErrors_map_ok, readFiles_map_ok, Merge_ok_aux first rest hcols]
  rfl

/-- Witness for claim C4 as amended, at the identity arrival schedule over
two concrete files. -/
theorem processFiles_merges_in_arrival_order_witness :
    processFiles oracleAB ["a.csv", "b.csv"] ',' [Except.ok tblA, Except.ok tblB] =
      Except.ok { FilePath := "", Delimiter := ',',
                  Headers := [{ Name := "h", Typ := ColumnType.StringType }],
                  Records := [[CellValue.str "1"], [CellValue.str "2"]] } := by
  have := processFiles_merges_in_arrival_order oracleAB ["a.csv", "b.csv"] ','
    [Except.ok tblA, Except.ok tblB] tblA [tblB] (by decide) (by decide) rfl (by decide)
  simpa [tblA, tblB] using this

/-- Claim C5: when every path is valid and at least one concurrent read
fails, processFiles fails with aggregatedReadError carrying every
underlying worker error (the drained error list is a permutation of the
workers' error list, whatever the arrival order), and no merged table is
produced. -/
theorem processFiles_aggregates_all_read_errors
    (fs : String → Except String (List (List String))) (paths : List String)
    (delimiter : Char) (arrival : List (Except String CSV))
    (hvalid : pathsValid paths = true)
    (hperm : arrival.Perm ((startedWorkers paths).map (workerResult fs delimiter)))
    (hfail : readErrors ((startedWorkers paths).map (workerResult fs delimiter)) ≠ []) :
    processFiles fs paths delimiter arrival =
      Except.error (ProcessError.aggregatedReadError (readErrors arrival)) ∧
    (readErrors arrival).Perm
      (readErrors ((startedWorkers paths).map (workerResult fs delimiter))) := by
  have hperm2 : (readErrors arrival).Perm
      (readErrors ((startedWorkers paths).map (workerResult fs delimiter))) :=
    hperm.filterMap _
  have hne : readErrors arrival ≠ [] := by
    intro h0
    apply hfail
    have hlen := hperm2.length_eq
    rw [h0] at hlen
    exact List.eq_nil_of_length_eq_zero hlen.symm
  constructor
  · unfold processFiles
    rw [hvalid]
    simp [hne]
  · exact hperm2

/-- Witness for claim C5 at a two-path list whose second read fails, with
the spawn-order arrival schedule. -/
theorem processFiles_aggregates_all_read_errors_witness :
    processFiles oracleErr ["good.csv", "bad.csv"] ',' wArr =
      Except.error (ProcessError.aggregatedReadError (readErrors wArr)) ∧
    (readErrors wArr).Perm
      (readErrors ((startedWorkers ["good.csv", "bad.csv"]).map
        (workerResult oracleErr ','))) :=
  processFiles_aggregates_all_read_errors oracleErr ["good.csv", "bad.csv"] ',' wArr
    (by decide) (List.Perm.refl wArr) (by decide)

/-- A run of decimal digits never starts with the hexadecimal marker. -/
theorem isHexMarked_false_of_digits (cs : List Char)
    (h : cs.all Char.isDigit = true) : isHexMarked cs = false := by
  unfold isHexMarked
  split
  · simp_all
  · simp_all
  · rfl

/-- A nonempty run of decimal digits is a valid decimal mantissa. -/
theorem decMantissa_of_digits (cs : List Char) (hne : cs ≠ [])
    (h : cs.all Char.isDigit = true) : decMantissa cs = true := by
  have h1 : cs.takeWhile Char.isDigit = cs :=
    List.takeWhile_eq_self_iff.2 (by simpa [List.all_eq_true] using h)
  have h2 : cs.dropWhile Char.isDigit = [] :=
    List.dropWhile_eq_nil_iff.2 (by simpa [List.all_eq_true] using h)
  simp only [decMantissa, h1, h2]
  simp [hne, expTail]

/-- Every string accepted by base-10 64-bit integer parsing is also
accepted by float parsing: its signed digit run is a valid decimal
mantissa.  Consequently the intCount branch of the inference loop can
never fire. -/
theorem parseFloatOk_of_parseInt64 (s : String)
    (h : (parseInt64 s).isSome = true) : parseFloatOk s = true := by
  unfold parseInt64 at h
  by_cases h1 : (stripSign s.data).isEmpty
  · simp [h1] at h
  · by_cases h2 : (stripSign s.data).all Char.isDigit
    · unfold parseFloatOk
      by_cases hsp : isSpecialFloat s.data
      · simp [hsp]
      · have hne : stripSign s.data ≠ [] := by simpa using h1
        have hhex := isHexMarked_false_of_digits _ h2
        have hdec := decMantissa_of_digits _ hne h2
        simp [hsp, hhex, hdec]
    · simp [h1, h2] at h

/-- No cell can be counted toward intCount: a string that parses as an
integer also parses as a float, and float parsing is attempted first. -/
theorem intCell_false (i : Nat) (r : List CellValue) : intCell i r = false := by
  unfold intCell
  cases hr : r[i]? with
  | none => rfl
  | some v =>
    cases v with
    | str s =>
      by_cases hp : (parseInt64 s).isSome
      · simp [parseFloatOk_of_parseInt64 s hp]
      · simp [hp]
    | int n => rfl
    | float lit => rfl

/-- The intCount of any column over any sample is zero. -/
theorem countInt_zero (S : List (List CellValue)) (i : Nat) : countInt S i = 0 :=
  List.countP_eq_zero.2 (fun r _ => by simp [intCell_false])

/-- Converting a cell twice under the same column type equals converting
it once. -/
theorem convertCell_idem (t : ColumnType) (v : CellValue) :
    convertCell t (convertCell t v) = convertCell t v := by
  cases v with
  | str s =>
    cases t with
    | StringType => rfl
    | FloatType =>
      by_cases hp : parseFloatOk s
      · simp [convertCell, hp]
      · simp [convertCell, hp]
    | IntegerType =>
      cases hp : parseInt64 s with
      | some n => simp [convertCell, hp]
      | none => simp [convertCell, hp]
  | int n => rfl
  | float lit => rfl

/-- Converting a record twice under the same headers equals converting it
once. -/
theorem convertRow_idem : ∀ (H : List Column) (r : List CellValue),
    convertRow H (convertRow H r) = convertRow H r
  | H, [] => by simp [convertRow]
  | [], _ :: _ => by simp [convertRow]
  | col :: hs, v :: vs => by
    simp only [convertRow, convertCell_idem]
    exact congrArg _ (convertRow_idem hs vs)

/-- Cell access in a converted record, when the column exists: the
original cell passed through convertCell at that column's type. -/
theorem convertRow_getElem?_some : ∀ (H : List Column) (r : List CellValue)
    (i : Nat) (col : Column), H[i]? = some col →
    (convertRow H r)[i]? = (r[i]?).map (convertCell col.Typ)
  | H, [], i, col, h => by
    cases H <;> simp [convertRow]
  | [], v :: vs, i, col, h => by simp at h
  | c :: hs, v :: vs, 0, col, h => by
    simp only [List.getElem?_cons_zero, Option.some.injEq] at h
    subst h
    simp [convertRow]
  | c :: hs, v :: vs, i + 1, col, h => by
    simp only [List.getElem?_cons_succ] at h
    simp only [convertRow, List.getElem?_cons_succ]
    exact convertRow_getElem?_some hs vs i col h

/-- Cell access in a converted record, when the column does not exist:
the cell is untouched. -/
theorem convertRow_getElem?_none : ∀ (H : List Column) (r : List CellValue)
    (i : Nat), H[i]? = none → (convertRow H r)[i]? = r[i]?
  | H, [], i, h => by cases H <;> simp [convertRow]
  | [], v :: vs, i, h => by simp [convertRow]
  | c :: hs, v :: vs, 0, h => by simp at h
  | c :: hs, v :: vs, i + 1, h => by
    simp only [List.getElem?_cons_succ] at h
    simp only [convertRow, List.getElem?_cons_succ]
    exact convertRow_getElem?_none hs vs i h

/-- A record contributes to floatCount at column i exactly when its cell
there is a string accepted by float parsing. -/
theorem floatCell_eq_true_iff (i : Nat) (r : List CellValue) :
    floatCell i r = true ↔
      ∃ s, r[i]? = some (CellValue.str s) ∧ parseFloatOk s = true := by
  unfold floatCell
  cases hr : r[i]? with
  | none => simp
  | some v =>
    cases v with
    | str s => simp
    | int n => simp
    | float lit => simp

/-- A converted cell that is still a string was that string already
before conversion. -/
theorem convertCell_eq_str (t : ColumnType) (v : CellValue) (s : String)
    (h : convertCell t v = CellValue.str s) : v = CellValue.str s := by
  cases v with
  | str s0 =>
    cases t with
    | StringType => simpa [convertCell] using h
    | FloatType =>
      by_cases hp : parseFloatOk s0
      · simp [convertCell, hp] at h
      · simpa [convertCell, hp] using h
    | IntegerType =>
      cases hp : parseInt64 s0 with
      | some n => simp [convertCell, hp] at h
      | none => simpa [convertCell, hp] using h
  | int n => simp [convertCell] at h
  | float lit => simp [convertCell] at h

/-- Inference preserves the number of header columns. -/
theorem inferHeaders_length : ∀ (H : List Column) (S : List (List CellValue))
    (n i : Nat), (inferHeaders S n i H).length = H.length
  | [], _, _, _ => rfl
  | col :: rest, S, n, i => by
    simp [inferHeaders, inferHeaders_length rest S n (i + 1)]

/-- Column access in inferred headers: the original column passed through
the per-column decision at the absolute index. -/
theorem inferHeaders_getElem? : ∀ (H : List Column) (S : List (List CellValue))
    (n i j : Nat),
    (inferHeaders S n i H)[j]? = (H[j]?).map (inferColumn S n (i + j))
  | [], S, n, i, j => by simp [inferHeaders]
  | col :: rest, S, n, i, 0 => by simp [inferHeaders]
  | col :: rest, S, n, i, j + 1 => by
    simp only [inferHeaders, List.getElem?_cons_succ]
    rw [inferHeaders_getElem? rest S n (i + 1) j]
    have : i + 1 + j = i + (j + 1) := by omega
    rw [this]

/-- When no column's floatCount reaches the positive sample size,
inference changes nothing: the intCount branch can never fire. -/
theorem inferHeaders_id : ∀ (H : List Column) (S : List (List CellValue))
    (n i : Nat), 0 < n → (∀ j, j < H.length → countFloat S (i + j) ≠ n) →
    inferHeaders S n i H = H
  | [], _, _, _, _, _ => rfl
  | col :: rest, S, n, i, hn, h => by
    have h0 : countFloat S i ≠ n := by simpa using h 0 (by simp)
    have hcol : inferColumn S n i col = col := by
      unfold inferColumn
      rw [if_neg h0, countInt_zero, if_neg (by omega)]
    simp only [inferHeaders, hcol]
    rw [inferHeaders_id rest S n (i + 1) hn (fun j hj => by
      have hx := h (j + 1) (by simp only [List.length_cons]; omega)
      have he : i + (j + 1) = i + 1 + j := by omega
      rwa [he] at hx)]

/-- With zero sample size, every column is assigned FloatType: floatCount
equals the sample size vacuously. -/
theorem inferHeaders_empty : ∀ (H : List Column) (i : Nat),
    inferHeaders [] 0 i H =
      H.map (fun col => { col with Typ := ColumnType.FloatType })
  | [], _ => rfl
  | col :: rest, i => by
    simp only [inferHeaders, List.map_cons, inferHeaders_empty rest (i + 1)]
    congr 1

/-- Core of idempotence: after one inference-and-conversion pass, no
column's floatCount can reach the positive sample size again.  A column
that reached it had all its sampled string cells replaced by floats; a
column that did not still has some sampled cell that is not a
float-parsable string, and conversion cannot create one. -/
theorem countFloat_after_convert (S : List (List CellValue)) (H0 : List Column)
    (n i : Nat) (hn : 0 < n) (hS : S.length = n) (hi : i < H0.length) :
    countFloat (S.map (convertRow (inferHeaders S n 0 H0))) i ≠ n := by
  by_cases hc : countFloat S i = n
  · have hcol : (inferHeaders S n 0 H0)[i]? =
        some { H0[i] with Typ := ColumnType.FloatType } := by
      rw [inferHeaders_getElem? H0 S n 0 i, List.getElem?_eq_getElem hi]
      simp [inferColumn, hc]
    have hall : ∀ r ∈ S, floatCell i r = true := by
      apply List.countP_eq_length.1
      rw [hS]
      exact hc
    intro hcontra
    have hzero : (S.map (convertRow (inferHeaders S n 0 H0))).countP (floatCell i) = 0 := by
      apply List.countP_eq_zero.2
      intro r' hr'
      obtain ⟨r, hr, hmap⟩ := List.mem_map.1 hr'
      subst hmap
      obtain ⟨s, hrs, hps⟩ := (floatCell_eq_true_iff i r).1 (hall r hr)
      unfold floatCell
      rw [convertRow_getElem?_some _ _ _ _ hcol, hrs]
      simp [convertCell, hps]
    unfold countFloat at hcontra
    omega
  · intro hcontra
    apply hc
    have hlen : (S.map (convertRow (inferHeaders S n 0 H0))).length = n := by
      simpa using hS
    have hall2 : ∀ r' ∈ S.map (convertRow (inferHeaders S n 0 H0)),
        floatCell i r' = true := by
      apply List.countP_eq_length.1
      unfold countFloat at hcontra
      omega
    have hallS : ∀ r ∈ S, floatCell i r = true := by
      intro r hr
      have h' := hall2 _ (List.mem_map_of_mem _ hr)
      obtain ⟨s', hs', hps'⟩ := (floatCell_eq_true_iff i _).1 h'
      cases hcol : (inferHeaders S n 0 H0)[i]? with
      | none =>
        rw [convertRow_getElem?_none _ _ _ hcol] at hs'
        unfold floatCell
        rw [hs']
        exact hps'
      | some col1 =>
        rw [convertRow_getElem?_some _ _ _ _ hcol] at hs'
        obtain ⟨v, hv, hcv⟩ := Option.map_eq_some'.1 hs'
        have hvs := convertCell_eq_str _ _ _ hcv
        subst hvs
        unfold floatCell
        rw [hv]
        exact hps'
    have hfull : S.countP (floatCell i) = S.length := List.countP_eq_length.2 hallS
    unfold countFloat
    rw [hfull, hS]

/-- Claim C6: ConvertColumnTypes is idempotent on well-formed tables:
running it twice yields the same column types and the same cell values as
running it once. -/
theorem ConvertColumnTypes_idempotent (c : CSV) (hwf : WellFormed c) :
    ConvertColumnTypes (ConvertColumnTypes c) = ConvertColumnTypes c := by
  rcases c with ⟨fp, d, H0, R⟩
  by_cases hR : R = []
  · subst hR
    have e1 : ConvertColumnTypes (⟨fp, d, H0, []⟩ : CSV) =
        ⟨fp, d, inferHeaders [] 0 0 H0, []⟩ := rfl
    rw [e1]
    have e2 : ConvertColumnTypes (⟨fp, d, inferHeaders [] 0 0 H0, []⟩ : CSV) =
        ⟨fp, d, inferHeaders [] 0 0 (inferHeaders [] 0 0 H0), []⟩ := rfl
    rw [e2]
    simp only [CSV.mk.injEq, and_true, true_and]
    rw [inferHeaders_empty (inferHeaders [] 0 0 H0) 0, inferHeaders_empty H0 0,
      List.map_map]
    exact List.map_congr_left (fun a _ => rfl)
  · have hlenpos : 0 < R.length := List.length_pos.2 hR
    set n := min defaultTypeInferanceRows R.length with hn
    have hnpos : 0 < n := by
      rw [hn]
      unfold defaultTypeInferanceRows
      omega
    have hSlen : (R.take n).length = n := by
      rw [List.length_take]
      have : n ≤ R.length := by
        rw [hn]
        exact Nat.min_le_right _ _
      omega
    set S := R.take n with hSdef
    set H1 := inferHeaders S n 0 H0 with hH1
    set R1 := R.map (convertRow H1) with hR1def
    have e1 : ConvertColumnTypes (⟨fp, d, H0, R⟩ : CSV) = ⟨fp, d, H1, R1⟩ := rfl
    rw [e1]
    have hR1len : R1.length = R.length := by
      rw [hR1def]
      exact List.length_map _ _
    have hn2 : min defaultTypeInferanceRows R1.length = n := by
      rw [hR1len, hn]
    have hS2 : R1.take (min defaultTypeInferanceRows R1.length) =
        S.map (convertRow H1) := by
      rw [hn2, hR1def, hSdef]
      exact (List.map_take _ _ _).symm
    have hH2 : inferHeaders (R1.take (min defaultTypeInferanceRows R1.length))
        (min defaultTypeInferanceRows R1.length) 0 H1 = H1 := by
      rw [hS2, hn2]
      apply inferHeaders_id H1 _ n 0 hnpos
      intro j hj
      have hj0 : j < H0.length := by
        rw [hH1, inferHeaders_length] at hj
        exact hj
      have := countFloat_after_convert S H0 n j hnpos hSlen hj0
      simpa [hH1] using this
    have e2 : ConvertColumnTypes (⟨fp, d, H1, R1⟩ : CSV) =
        ⟨fp, d,
         inferHeaders (R1.take (min defaultTypeInferanceRows R1.length))
           (min defaultTypeInferanceRows R1.length) 0 H1,
         R1.map (convertRow
           (inferHeaders (R1.take (min defaultTypeInferanceRows R1.length))
             (min defaultTypeInferanceRows R1.length) 0 H1))⟩ := rfl
    rw [e2, hH2]
    simp only [CSV.mk.injEq, and_true, true_and]
    rw [hR1def, List.map_map]
    exact List.map_congr_left (fun r _ => convertRow_idem H1 r)

/-- Witness for claim C6 at a concrete well-formed two-column table. -/
theorem ConvertColumnTypes_idempotent_witness :
    WellFormed idemTbl ∧
    ConvertColumnTypes (ConvertColumnTypes idemTbl) = ConvertColumnTypes idemTbl :=
  ⟨by decide, ConvertColumnTypes_idempotent idemTbl (by decide)⟩

end Csv2Excel
